import Mathlib

/-!
Formal model of the btc-monitor-frontend prediction and alert engines.

Sources embedded here:
  * `src/prediction.ts` — indicator library, signal aggregator, confidence
    adjuster, `predictPrice`;
  * `src/hooks/usePredictions.ts` — `resolvePrediction`;
  * `src/hooks/useAlerts.ts` — `markRead`, `markAllRead`, `unreadCount`;
  * `src/components/AlertMonitor.tsx` — the long-trap-signal and
    new-whale-in-top-100 scan rules of `runScan`.

Modelling conventions: JavaScript numbers are modelled as rationals `ℚ`
(the arithmetic of every claim below is exact); entries of indicator arrays
that the source leaves as `NaN`/`undefined` are modelled as `none : Option ℚ`.
`Math.sqrt` (used only by the Bollinger-band indicator) is not rational-valued,
so the functions that need it take an explicit square-root function `sq` as a
parameter; every theorem below only ever applies it at `0`, where
`Math.sqrt 0 = 0` exactly.
-/

/-! ## Data model (`src/types.ts`) -/

inductive PredictionDirection
  | up
  | down
  | neutral
deriving DecidableEq

structure PredictionSignal where
  name : String
  direction : PredictionDirection
  weight : ℚ
  value : ℚ
deriving DecidableEq

inductive AlertSeverity
  | info
  | warning
  | critical
deriving DecidableEq

inductive AlertCategory
  | dormant_activation
  | long_trap_signal
  | derivatives_hedging
  | new_whale_top100
  | large_inflow
  | large_outflow
deriving DecidableEq

/-- Record `Alert` from `src/types.ts`; the free-form `data` payload is kept
abstract as a type parameter. -/
structure Alert (α : Type) where
  id : String
  timestamp : ℤ
  severity : AlertSeverity
  category : AlertCategory
  title : String
  message : String
  data : Option α
  read : Bool
deriving DecidableEq

inductive TxType
  | exchange_deposit
  | exchange_withdrawal
  | whale_transfer
  | unknown
deriving DecidableEq

/-- Record `WhaleTransaction` from `src/types.ts`, restricted to the fields the
modelled alert rules consult (`type` and `amount`). -/
structure WhaleTransaction where
  amount : ℚ
  type : TxType
deriving DecidableEq

/-- Record `TopHolder` from `src/types.ts`, restricted to the fields the
new-whale rule consults. -/
structure TopHolder where
  rank : ℕ
  address : String
  balance : ℚ
  percentOfTotal : ℚ
deriving DecidableEq

/-- Record `Prediction` from `src/types.ts`.  The fields set by resolution
are optional (`undefined` before resolution). -/
structure Prediction where
  id : String
  createdAt : ℤ
  targetTime : ℤ
  target : String
  direction : PredictionDirection
  timeframe : String
  currentValue : ℚ
  predictedValue : ℚ
  predictedChange : ℚ
  confidence : ℤ
  signals : List PredictionSignal
  resolved : Bool
  actualValue : Option ℚ
  actualChange : Option ℚ
  accurate : Option Bool
  error : Option ℚ
deriving DecidableEq

/-! ## Indicator library (`src/prediction.ts`) -/

/-- Function `calcSMA` from `src/prediction.ts`: for `i < period - 1` the source pushes
`NaN` (`none`); otherwise the mean of `data.slice(i - period + 1, i + 1)`.
The warm-up comparison is carried out over `ℤ` exactly as the source compares
the signed quantities `i` and `period - 1`. -/
def calcSMA (data : List ℚ) (period : ℕ) : List (Option ℚ) :=
  (List.range data.length).map fun (i : ℕ) =>
    if (i : ℤ) < (period : ℤ) - 1 then none
    else some (((data.drop (i + 1 - period)).take period).sum / (period : ℚ))

/-- One smoothing step of `calcEMA`; `NaN`/`undefined` operands propagate as
`none`, exactly as `NaN` propagates through JavaScript arithmetic. -/
def emaStep (k : ℚ) (x prev : Option ℚ) : Option ℚ :=
  Option.map₂ (fun v p => v * k + p * (1 - k)) x prev

/-- The loop of `calcEMA`: each output is `data[i]*k + result[i-1]*(1-k)`. -/
def emaLoop (k : ℚ) : Option ℚ → List (Option ℚ) → List (Option ℚ)
  | _, [] => []
  | prev, x :: xs => emaStep k x prev :: emaLoop k (emaStep k x prev) xs

/-- Function `calcEMA` from `src/prediction.ts`.  The source seeds the output array with
`data[0]`; on an empty input that seed is JavaScript `undefined`, so the
function returns a one-element array, modelled as `[none]`. -/
def calcEMA (data : List (Option ℚ)) (period : ℕ) : List (Option ℚ) :=
  match data with
  | [] => [none]
  | d :: rest => d :: emaLoop (2 / ((period : ℚ) + 1)) d rest

/-- Consecutive differences `data[i] - data[i-1]`, the `diff` values of
`calcRSI`. -/
def deltas (data : List ℚ) : List ℚ :=
  List.zipWith (fun a b => b - a) data data.tail

/-- Positive part of a delta (`diff > 0 ? diff : 0`). -/
def gainPart (d : ℚ) : ℚ := if d > 0 then d else 0

/-- Negative part of a delta (`diff < 0 ? -diff : 0`). -/
def lossPart (d : ℚ) : ℚ := if d < 0 then -d else 0

/-- The RSI formula applied to a smoothed gain/loss pair:
`avgLoss === 0 ? 100 : 100 - 100 / (1 + avgGain / avgLoss)`. -/
def rsiVal (avgGain avgLoss : ℚ) : ℚ :=
  if avgLoss = 0 then 100 else 100 - 100 / (1 + avgGain / avgLoss)

/-- Wilder smoothing step of `calcRSI`:
`avg := (avg * (period - 1) + part diff) / period` for both components. -/
def wilderStep (period : ℕ) (gl : ℚ × ℚ) (d : ℚ) : ℚ × ℚ :=
  ((gl.1 * ((period : ℚ) - 1) + gainPart d) / (period : ℚ),
   (gl.2 * ((period : ℚ) - 1) + lossPart d) / (period : ℚ))

/-- Average gain over the first `period` deltas (`avgGain` after the first
loop of `calcRSI`). -/
def rsiInitGain (data : List ℚ) (period : ℕ) : ℚ :=
  (((deltas data).take period).map gainPart).sum / (period : ℚ)

/-- Average loss over the first `period` deltas (`avgLoss` after the first
loop of `calcRSI`). -/
def rsiInitLoss (data : List ℚ) (period : ℕ) : ℚ :=
  (((deltas data).take period).map lossPart).sum / (period : ℚ)

/-- Function `calcRSI` from `src/prediction.ts`.  Indices `< period` are `NaN`;
`result[period]` is the RSI of the initial averages, and each later index
applies one Wilder smoothing step to the previous averages before applying
the RSI formula.  `List.scanl` reproduces the source's in-place loop: its
head is the initial pair (producing `result[period]`) and each further
element is the smoothed pair at the next index. -/
def calcRSI (data : List ℚ) (period : ℕ) : List (Option ℚ) :=
  if data.length < period + 1 then List.replicate data.length none
  else
    List.replicate period none ++
      (((deltas data).drop period).scanl (wilderStep period)
          (rsiInitGain data period, rsiInitLoss data period)).map
        (fun gl => some (rsiVal gl.1 gl.2))

/-- Function `calcMACD` from `src/prediction.ts`: returns
`(macd line, signal line, histogram)`. -/
def calcMACD (data : List ℚ) :
    List (Option ℚ) × List (Option ℚ) × List (Option ℚ) :=
  let ema12 := calcEMA (data.map some) 12
  let ema26 := calcEMA (data.map some) 26
  let macdLine := List.zipWith (Option.map₂ (fun a b => a - b)) ema12 ema26
  let signalLine := calcEMA macdLine 9
  let histogram := List.zipWith (Option.map₂ (fun a b => a - b)) macdLine signalLine
  (macdLine, signalLine, histogram)

/-- Population standard deviation of the trailing window of
`calcBollingerBands`; `mean` is `sma[i]`, which on the computed branch equals
the slice average.  `sq` stands in for `Math.sqrt`. -/
def bbStd (sq : ℚ → ℚ) (data : List ℚ) (period : ℕ) (i : ℕ) : ℚ :=
  let slice := (data.drop (i + 1 - period)).take period
  let mean := slice.sum / (period : ℚ)
  sq ((slice.map fun v => (v - mean) ^ 2).sum / (period : ℚ))

/-- Function `calcBollingerBands` from `src/prediction.ts`: returns
`(upper, middle, lower)` with `upper/lower = mean ± 2 * std` and `NaN` before
the warm-up period. -/
def calcBollingerBands (sq : ℚ → ℚ) (data : List ℚ) (period : ℕ) :
    List (Option ℚ) × List (Option ℚ) × List (Option ℚ) :=
  let upper := (List.range data.length).map fun (i : ℕ) =>
    if (i : ℤ) < (period : ℤ) - 1 then none
    else some (((data.drop (i + 1 - period)).take period).sum / (period : ℚ)
      + 2 * bbStd sq data period i)
  let lower := (List.range data.length).map fun (i : ℕ) =>
    if (i : ℤ) < (period : ℤ) - 1 then none
    else some (((data.drop (i + 1 - period)).take period).sum / (period : ℚ)
      - 2 * bbStd sq data period i)
  (upper, calcSMA data period, lower)

/-- Function `calcMomentum` from `src/prediction.ts`: percent change versus the value
`period` steps back; indices `< period` are `NaN`.  When `data[i - period]`
is `0` the source divides by zero (yielding a non-finite value that no
comparison treats as a finite momentum); this is modelled as `none`.  All
theorems below apply `calcMomentum` only where the divisor is nonzero. -/
def calcMomentum (data : List ℚ) (period : ℕ) : List (Option ℚ) :=
  (List.range data.length).map fun (i : ℕ) =>
    if i < period then none
    else if data.getD (i - period) 0 = 0 then none
    else some ((data.getD i 0 - data.getD (i - period) 0) / data.getD (i - period) 0 * 100)

/-! ## Signal aggregator and confidence adjuster (`src/prediction.ts`) -/

/-- Sum of the weights of the up-direction signals. -/
def upWeight (signals : List PredictionSignal) : ℚ :=
  ((signals.filter fun s => s.direction == PredictionDirection.up).map
    fun s => s.weight).sum

/-- Sum of the weights of the down-direction signals. -/
def downWeight (signals : List PredictionSignal) : ℚ :=
  ((signals.filter fun s => s.direction == PredictionDirection.down).map
    fun s => s.weight).sum

/-- Sum of all signal weights (neutral included). -/
def totalWeight (signals : List PredictionSignal) : ℚ :=
  (signals.map fun s => s.weight).sum

/-- Result record of `aggregateSignals` and the `predict*` functions. -/
structure AggregateResult where
  direction : PredictionDirection
  change : ℚ
  confidence : ℤ
  signals : List PredictionSignal
deriving DecidableEq

/-- Function `aggregateSignals` from `src/prediction.ts`.  `Math.round` on a
nonnegative rational is `round`; `Math.min/Math.max` clamp the rounded value,
so the confidence is an integer (`ℤ`). -/
def aggregateSignals (signals : List PredictionSignal) (currentValue : ℚ) :
    AggregateResult :=
  if signals.length = 0 then
    { direction := .neutral, change := 0, confidence := 15, signals := signals }
  else
    let upW := upWeight signals
    let downW := downWeight signals
    let totalW := totalWeight signals
    let direction : PredictionDirection :=
      if upW > downW * 1.2 then .up
      else if downW > upW * 1.2 then .down
      else .neutral
    let dominantWeight := max upW downW
    let agreement := if totalW > 0 then dominantWeight / totalW else 0
    let confidence : ℤ := min 85 (max 15 (round (agreement * 70 + 15)))
    let changeBase : ℚ := if direction = .neutral then 0 else (agreement - 0.5) * 2
    let change : ℚ :=
      if direction = .up then changeBase * 0.5
      else if direction = .down then -changeBase * 0.5
      else 0
    { direction := direction
      change := change
      confidence := confidence
      signals := signals }

/-- Function `adjustConfidence` from `src/prediction.ts`. -/
def adjustConfidence (baseConfidence historicalAccuracy : ℚ) : ℤ :=
  min 85 (max 15 (round (baseConfidence * (0.5 + 0.5 * (historicalAccuracy / 100)))))

/-! ## `predictPrice` (`src/prediction.ts`)

The source reads the last (and for MACD also the second-to-last) entry of
each indicator array, skips the signal when that entry is `NaN`, and appends
the signals in a fixed order.  Each numbered block of the source is one
definition below; `predictPrice` concatenates them. -/

/-- Array indexing `l[i]` as the source uses it: out-of-range and negative
indices give `undefined`, which the `isNaN` guards treat like `NaN` (`none`). -/
def atIdx (l : List (Option ℚ)) (i : ℤ) : Option ℚ :=
  if i < 0 then none else (l.get? i.toNat).getD none

/-- Block 1 of `predictPrice`: the SMA-crossover signal. -/
def smaSignals (prices : List ℚ) : List PredictionSignal :=
  match atIdx (calcSMA prices 5) ((prices.length : ℤ) - 1),
      atIdx (calcSMA prices 20) ((prices.length : ℤ) - 1) with
  | some a, some b =>
    [{ name := "SMA交叉"
       direction := if a > b then .up else if a < b then .down else .neutral
       weight := 0.2
       value := a - b }]
  | _, _ => []

/-- Block 2 of `predictPrice`: the RSI signal (period 14). -/
def rsiSignals (prices : List ℚ) : List PredictionSignal :=
  match atIdx (calcRSI prices 14) ((prices.length : ℤ) - 1) with
  | some r =>
    [{ name := "RSI"
       direction := if r < 30 then .up else if r > 70 then .down else .neutral
       weight := 0.2
       value := r }]
  | none => []

/-- Block 3 of `predictPrice`: the MACD-histogram signal. -/
def macdSignals (prices : List ℚ) : List PredictionSignal :=
  match atIdx (calcMACD prices).2.2 ((prices.length : ℤ) - 1),
      atIdx (calcMACD prices).2.2 ((prices.length : ℤ) - 2) with
  | some a, some b =>
    [{ name := "MACD"
       direction := if a > b then .up else if a < b then .down else .neutral
       weight := 0.2
       value := a }]
  | _, _ => []

/-- Block 4 of `predictPrice`: the momentum signal (period 10). -/
def momentumSignals (prices : List ℚ) : List PredictionSignal :=
  match atIdx (calcMomentum prices 10) ((prices.length : ℤ) - 1) with
  | some m =>
    [{ name := "动量"
       direction := if m > 0.1 then .up else if m < -0.1 then .down else .neutral
       weight := 0.15
       value := m }]
  | none => []

/-- Block 5 of `predictPrice`: the Bollinger-band-position signal
(period 20). -/
def bbSignals (sq : ℚ → ℚ) (prices : List ℚ) : List PredictionSignal :=
  match atIdx (calcBollingerBands sq prices 20).1 ((prices.length : ℤ) - 1),
      atIdx (calcBollingerBands sq prices 20).2.2 ((prices.length : ℤ) - 1) with
  | some bbUpper, some bbLower =>
    let bbRange := bbUpper - bbLower
    let bbPos :=
      if bbRange > 0 then (prices.getD (prices.length - 1) 0 - bbLower) / bbRange
      else 0.5
    [{ name := "布林带"
       direction := if bbPos < 0.2 then .up else if bbPos > 0.8 then .down else .neutral
       weight := 0.15
       value := bbPos }]
  | _, _ => []

/-- Block 6 of `predictPrice`: the exchange-netflow signal. -/
def netflowSignals (exchangeNetflow : ℚ) : List PredictionSignal :=
  if exchangeNetflow ≠ 0 then
    [{ name := "交易所净流入"
       direction := if exchangeNetflow > 0 then .down else .up
       weight := 0.1
       value := exchangeNetflow }]
  else []

/-- Function `predictPrice` from `src/prediction.ts`: below 30 samples it returns the
floor result, otherwise it aggregates the six indicator signals. -/
def predictPrice (sq : ℚ → ℚ) (prices : List ℚ) (exchangeNetflow : ℚ) :
    AggregateResult :=
  if prices.length < 30 then
    { direction := .neutral, change := 0, confidence := 15, signals := [] }
  else
    aggregateSignals
      (smaSignals prices ++ rsiSignals prices ++ macdSignals prices ++
        momentumSignals prices ++ bbSignals sq prices ++
        netflowSignals exchangeNetflow)
      (prices.getD (prices.length - 1) 0)

/-- Exact rational square root for arguments whose numerator and denominator
are perfect squares; stands in for the source's floating-point `Math.sqrt`
at such arguments (in particular `ratSqrt 0 = 0 = Math.sqrt 0`). -/
def ratSqrt (q : ℚ) : ℚ := (Nat.sqrt q.num.toNat : ℚ) / (Nat.sqrt q.den : ℚ)

/-! ## Prediction resolution (`src/hooks/usePredictions.ts`) -/

/-- The per-element body of `resolvePrediction`: an element is rewritten only
when its `id` matches and it is not yet resolved. -/
def resolveOne (id : String) (actualValue : ℚ) (p : Prediction) : Prediction :=
  if p.id ≠ id ∨ p.resolved then p
  else
    let actualChange : ℚ :=
      if p.currentValue ≠ 0 then (actualValue - p.currentValue) / p.currentValue * 100
      else 0
    { p with
      resolved := true
      actualValue := some actualValue
      actualChange := some actualChange
      accurate := some (decide ((p.direction = .up ∧ actualChange > 0) ∨
        (p.direction = .down ∧ actualChange < 0) ∨
        (p.direction = .neutral ∧ |actualChange| < 0.1)))
      error := some |actualChange - p.predictedChange| }

/-- Function `resolvePrediction` from `src/hooks/usePredictions.ts` (the pure list
update inside `setPredictions`). -/
def resolvePrediction (preds : List Prediction) (id : String) (actualValue : ℚ) :
    List Prediction :=
  preds.map (resolveOne id actualValue)

/-! ## Alert read-state operations (`src/hooks/useAlerts.ts`) -/

/-- Function `unreadCount` from `src/hooks/useAlerts.ts`. -/
def unreadCount {α : Type} (alerts : List (Alert α)) : ℕ :=
  (alerts.filter fun a => !a.read).length

/-- Function `markRead` from `src/hooks/useAlerts.ts` (the pure list update). -/
def markRead {α : Type} (alerts : List (Alert α)) (id : String) : List (Alert α) :=
  alerts.map fun a => if a.id = id then { a with read := true } else a

/-- Function `markAllRead` from `src/hooks/useAlerts.ts` (the pure list update). -/
def markAllRead {α : Type} (alerts : List (Alert α)) : List (Alert α) :=
  alerts.map fun a => { a with read := true }

/-! ## Alert scan rules (`src/components/AlertMonitor.tsx`)

`runScan` is an effectful React callback; the decision logic of rules 2
(long trap signal) and 4 (new whale in top 100) is pure and is extracted
here.  An emitted alert is modelled by its severity, category and — for the
new-whale rule — the address it reports; the presentation strings passed to
`addAlert` are not modelled. -/

structure EmittedAlert where
  severity : AlertSeverity
  category : AlertCategory
  address : Option String
deriving DecidableEq

/-- Sum `depositBTC` of rule 2: total amount of `exchange_deposit` transactions. -/
def depositBTC (txs : List WhaleTransaction) : ℚ :=
  ((txs.filter fun t => t.type == TxType.exchange_deposit).map
    fun t => t.amount).sum

/-- Sum `withdrawalBTC` of rule 2: total amount of `exchange_withdrawal`
transactions. -/
def withdrawalBTC (txs : List WhaleTransaction) : ℚ :=
  ((txs.filter fun t => t.type == TxType.exchange_withdrawal).map
    fun t => t.amount).sum

/-- The deposit/withdrawal ratio of rule 2:
`withdrawalBTC > 0 ? depositBTC / withdrawalBTC : depositBTC > 0 ? 10 : 1`. -/
def longTrapRatioVal (txs : List WhaleTransaction) : ℚ :=
  if withdrawalBTC txs > 0 then depositBTC txs / withdrawalBTC txs
  else if depositBTC txs > 0 then 10
  else 1

/-- Alerts emitted by one evaluation of rule 2 (`long_trap_signal`): a
`warning` when the ratio exceeds 2 and the 24h price change exceeds 2%, else
an `info` when the ratio exceeds 3, else nothing. -/
def longTrapScan (txs : List WhaleTransaction) (changePercent24h : ℚ) :
    List EmittedAlert :=
  if longTrapRatioVal txs > 2 ∧ changePercent24h > 2 then
    [{ severity := .warning, category := .long_trap_signal, address := none }]
  else if longTrapRatioVal txs > 3 then
    [{ severity := .info, category := .long_trap_signal, address := none }]
  else []

inductive RuleStatusKind
  | idle
  | checking
  | triggered
  | normal
deriving DecidableEq

/-- Rule status after one evaluation of rule 2: `triggered` exactly when an
alert was emitted, `normal` otherwise. -/
def longTrapStatus (txs : List WhaleTransaction) (changePercent24h : ℚ) :
    RuleStatusKind :=
  if longTrapScan txs changePercent24h = [] then .normal else .triggered

/-- The alert rule 4 emits for one new top-100 address. -/
def newWhaleAlert (h : TopHolder) : EmittedAlert :=
  { severity := .critical, category := .new_whale_top100, address := some h.address }

/-- Filter `newWhales` of rule 4: current holders whose address is absent from the
previous holder set. -/
def newWhales (prevHolders holders : List TopHolder) : List TopHolder :=
  holders.filter fun h => !((prevHolders.map fun g => g.address).contains h.address)

/-- One evaluation of rule 4 (`new_whale_top100`): returns the emitted alerts
and the updated `prevHoldersRef` baseline.  The rule body only runs when the
fetched holder list is nonempty; it diffs only when a baseline exists, and it
always installs the current holders as the new baseline afterwards. -/
def newWhaleScan (prevHolders holders : List TopHolder) :
    List EmittedAlert × List TopHolder :=
  if holders.length > 0 then
    (if prevHolders.length > 0 then (newWhales prevHolders holders).map newWhaleAlert
     else [],
     holders)
  else ([], prevHolders)

/-! ## Reference definition for the EMA specification text -/

/-- Recursion of the specification's EMA description: each value is
`value * k + previous * (1 - k)`. -/
def emaRecur (k : ℚ) : ℚ → List ℚ → List ℚ
  | _, [] => []
  | prev, x :: xs => (x * k + prev * (1 - k)) :: emaRecur k (x * k + prev * (1 - k)) xs

/-- Reference definition following the specification text for `EMA`: the seed
is the first element of the series and `k = 2/(period+1)`.  Compared against
`calcEMA` below. -/
def emaSpec (data : List ℚ) (period : ℕ) : List ℚ :=
  match data with
  | [] => []
  | d :: rest => d :: emaRecur (2 / ((period : ℚ) + 1)) d rest

/-! ## Reference definitions for the resolution formulas of the specification -/

/-- Resolution formula of the specification:
`actualChange = (actual - current)/current * 100`, and `0` when
`current = 0`.  Compared against `resolveOne` below. -/
def actualChangeSpec (current actual : ℚ) : ℚ :=
  if current = 0 then 0 else (actual - current) / current * 100

/-- Direction-correctness predicate of the specification: `up` is correct iff
the actual change is positive, `down` iff negative, `neutral` iff its absolute
value is below `0.1`. -/
def accurateSpec (dir : PredictionDirection) (ac : ℚ) : Prop :=
  (dir = .up ∧ ac > 0) ∨ (dir = .down ∧ ac < 0) ∨ (dir = .neutral ∧ |ac| < 0.1)

instance (dir : PredictionDirection) (ac : ℚ) : Decidable (accurateSpec dir ac) := by
  unfold accurateSpec; infer_instance

/-- Concrete prediction of end-to-end scenario 3 of the specification:
`direction = up`, `predictedChange = +2`, `currentValue = 100`. -/
def samplePrediction : Prediction :=
  { id := "p1"
    createdAt := 0
    targetTime := 3600
    target := "price"
    direction := .up
    timeframe := "1h"
    currentValue := 100
    predictedValue := 102
    predictedChange := 2
    confidence := 50
    signals := []
    resolved := false
    actualValue := none
    actualChange := none
    accurate := none
    error := none }

/-! ## Helper lemmas -/

lemma clamp15_85 (x : ℤ) : 15 ≤ min 85 (max 15 x) ∧ min 85 (max 15 x) ≤ 85 :=
  ⟨le_min (by norm_num) (le_max_left 15 x), min_le_left _ _⟩

lemma aggregateSignals_confidence_shape (signals : List PredictionSignal)
    (currentValue : ℚ) :
    (aggregateSignals signals currentValue).confidence = 15 ∨
    ∃ x : ℤ, (aggregateSignals signals currentValue).confidence = min 85 (max 15 x) := by
  unfold aggregateSignals
  by_cases h : signals.length = 0
  · rw [if_pos h]
    exact Or.inl rfl
  · rw [if_neg h]
    exact Or.inr ⟨_, rfl⟩

lemma weight_sum_nonneg (signals : List PredictionSignal)
    (p : PredictionSignal → Bool) (hw : ∀ s ∈ signals, 0 ≤ s.weight) :
    0 ≤ ((signals.filter p).map fun s => s.weight).sum := by
  apply List.sum_nonneg
  intro x hx
  obtain ⟨s, hs, rfl⟩ := List.mem_map.1 hx
  exact hw s (List.mem_of_mem_filter hs)

/-! ## Claim theorems: aggregator and adjuster -/

/-- C4: for every signal set (the empty set included) the aggregated
confidence lies in `[15, 85]`, and for all finite inputs `adjustConfidence`
computes `baseConfidence * (0.5 + 0.5 * historicalAccuracy / 100)`, rounds,
and clamps into `[15, 85]`.  Integrality is expressed by the codomain `ℤ`
(`Math.round` produces an integer, `Math.min`/`Math.max` preserve it). -/
theorem confidence_always_in_range :
    ∀ (signals : List PredictionSignal) (currentValue : ℚ)
      (baseConfidence historicalAccuracy : ℚ),
      15 ≤ (aggregateSignals signals currentValue).confidence ∧
      (aggregateSignals signals currentValue).confidence ≤ 85 ∧
      15 ≤ adjustConfidence baseConfidence historicalAccuracy ∧
      adjustConfidence baseConfidence historicalAccuracy ≤ 85 ∧
      adjustConfidence baseConfidence historicalAccuracy =
        min 85 (max 15 (round (baseConfidence * (0.5 + 0.5 * (historicalAccuracy / 100))))) := by
  intro signals currentValue b h
  have hadj : adjustConfidence b h =
      min 85 (max 15 (round (b * (0.5 + 0.5 * (h / 100))))) := rfl
  have hb := clamp15_85 (round (b * (0.5 + 0.5 * (h / 100))))
  rcases aggregateSignals_confidence_shape signals currentValue with hc | ⟨x, hc⟩
  · rw [hc, hadj]
    exact ⟨by norm_num, by norm_num, (clamp15_85 _).1, (clamp15_85 _).2, rfl⟩
  · rw [hc, hadj]
    exact ⟨(clamp15_85 x).1, (clamp15_85 x).2, (clamp15_85 _).1, (clamp15_85 _).2, rfl⟩

/-- C3: whenever the up-weight and down-weight sums coincide (weights being
nonnegative, as every signal produced by the engine has weight in `(0, 1]`),
the aggregator returns direction `neutral` with `change = 0`. -/
theorem aggregate_balanced_is_neutral :
    ∀ (signals : List PredictionSignal) (currentValue : ℚ),
      signals ≠ [] → (∀ s ∈ signals, 0 ≤ s.weight) →
      upWeight signals = downWeight signals →
      (aggregateSignals signals currentValue).direction = PredictionDirection.neutral ∧
      (aggregateSignals signals currentValue).change = 0 := by
  intro signals currentValue hne hw hud
  have hlen : ¬ signals.length = 0 := by
    simpa [List.length_eq_zero] using hne
  have hw0 : 0 ≤ downWeight signals := weight_sum_nonneg _ _ hw
  have hnot : ¬ downWeight signals > downWeight signals * 1.2 := by
    push_neg
    nlinarith
  unfold aggregateSignals
  rw [if_neg hlen, hud]
  constructor
  · show (if downWeight signals > downWeight signals * 1.2 then PredictionDirection.up
      else if downWeight signals > downWeight signals * 1.2 then PredictionDirection.down
      else PredictionDirection.neutral) = PredictionDirection.neutral
    rw [if_neg hnot, if_neg hnot]
  · show (if (if downWeight signals > downWeight signals * 1.2 then PredictionDirection.up
          else if downWeight signals > downWeight signals * 1.2 then PredictionDirection.down
          else PredictionDirection.neutral) = PredictionDirection.up then _
        else if (if downWeight signals > downWeight signals * 1.2 then PredictionDirection.up
          else if downWeight signals > downWeight signals * 1.2 then PredictionDirection.down
          else PredictionDirection.neutral) = PredictionDirection.down then _
        else 0) = 0
    rw [if_neg hnot, if_neg hnot]
    simp

/-- Witness for `aggregate_balanced_is_neutral` at a concrete balanced signal
set. -/
theorem aggregate_balanced_is_neutral_witness :
    (aggregateSignals
      [{ name := "a"
         direction := PredictionDirection.up
         weight := 0.3
         value := 1 },
       { name := "b"
         direction := PredictionDirection.down
         weight := 0.3
         value := 2 }] 100).direction = PredictionDirection.neutral ∧
    (aggregateSignals
      [{ name := "a"
         direction := PredictionDirection.up
         weight := 0.3
         value := 1 },
       { name := "b"
         direction := PredictionDirection.down
         weight := 0.3
         value := 2 }] 100).change = 0 :=
  aggregate_balanced_is_neutral _ 100 (List.cons_ne_nil _ _)
    (by intro s hs; fin_cases hs <;> norm_num)
    (by simp [upWeight, downWeight, List.filter,
      show (PredictionDirection.down == PredictionDirection.up) = false from by decide,
      show (PredictionDirection.up == PredictionDirection.down) = false from by decide,
      show (PredictionDirection.down == PredictionDirection.down) = true from by decide,
      show (PredictionDirection.up == PredictionDirection.up) = true from by decide])

/-! ## Claim theorems: alert read-state operations -/

/-- C10: `markAllRead` keeps length and order, rewrites every element to the
same record with `read := true` (all other fields untouched by the record
update), after which `unreadCount` is `0`; `markRead id` rewrites exactly the
elements whose `id` matches (again only the `read` field) and leaves every
other element unchanged. -/
theorem markAllRead_markRead_frame :
    ∀ (α : Type) (alerts : List (Alert α)) (id : String) (i : ℕ),
      (markAllRead alerts).length = alerts.length ∧
      (markAllRead alerts)[i]? = (alerts[i]?).map (fun a => { a with read := true }) ∧
      unreadCount (markAllRead alerts) = 0 ∧
      (markRead alerts id).length = alerts.length ∧
      (markRead alerts id)[i]? =
        (alerts[i]?).map (fun a => if a.id = id then { a with read := true } else a) := by
  intro α alerts id i
  refine ⟨List.length_map _ _, List.getElem?_map _ _ _, ?_, List.length_map _ _,
    List.getElem?_map _ _ _⟩
  induction alerts with
  | nil => rfl
  | cons a l ih =>
    simp [unreadCount, markAllRead, List.filter]

/-! ## Claim theorems: prediction resolution -/

/-- C5: resolving an unresolved prediction stores
`actualChange = (actual - current)/current * 100` (`0` when `current = 0`),
`accurate` as the direction-correctness predicate, and
`error = |actualChange - predictedChange|`; in particular the specification's
scenario 3 (`direction = up`, `predictedChange = 2`, `currentValue = 100`,
resolved at `98`) yields `actualChange = -2`, `accurate = false`,
`error = 4`. -/
theorem resolvePrediction_sets_resolution_fields :
    (∀ (preds : List Prediction) (id : String) (a : ℚ) (i : ℕ) (p : Prediction),
      preds[i]? = some p → p.id = id → p.resolved = false →
      ∃ q : Prediction,
        (resolvePrediction preds id a)[i]? = some q ∧
        q = { p with
              resolved := true
              actualValue := some a
              actualChange := some (actualChangeSpec p.currentValue a)
              accurate := some (decide (accurateSpec p.direction
                (actualChangeSpec p.currentValue a)))
              error := some |actualChangeSpec p.currentValue a - p.predictedChange| } ∧
        (q.accurate = some true ↔
          accurateSpec p.direction (actualChangeSpec p.currentValue a))) ∧
    (∃ q : Prediction,
      (resolvePrediction [samplePrediction] "p1" 98)[0]? = some q ∧
      q.actualChange = some (-2) ∧ q.accurate = some false ∧ q.error = some 4) := by
  have key : ∀ (id : String) (a : ℚ) (p : Prediction), p.id = id → p.resolved = false →
      resolveOne id a p =
        { p with
          resolved := true
          actualValue := some a
          actualChange := some (actualChangeSpec p.currentValue a)
          accurate := some (decide (accurateSpec p.direction
            (actualChangeSpec p.currentValue a)))
          error := some |actualChangeSpec p.currentValue a - p.predictedChange| } := by
    intro id a p hid hres
    unfold resolveOne
    rw [if_neg (by simp [hid, hres])]
    have hac : (if p.currentValue ≠ 0 then (a - p.currentValue) / p.currentValue * 100 else 0)
        = actualChangeSpec p.currentValue a := by
      unfold actualChangeSpec
      by_cases h : p.currentValue = 0 <;> simp [h]
    rw [hac]
    rfl
  constructor
  · intro preds id a i p hp hid hres
    refine ⟨_, ?_, key id a p hid hres, ?_⟩
    · rw [resolvePrediction, List.getElem?_map, hp, Option.map_some']
    · rw [key id a p hid hres]
      simp
  · refine ⟨resolveOne "p1" 98 samplePrediction, ?_, ?_, ?_, ?_⟩
    · rw [resolvePrediction, List.map_cons, List.map_nil]
      rfl
    · rw [key "p1" 98 samplePrediction rfl rfl]
      show some (actualChangeSpec (100 : ℚ) 98) = some (-2)
      norm_num [actualChangeSpec]
    · rw [key "p1" 98 samplePrediction rfl rfl]
      show some (decide (accurateSpec samplePrediction.direction
        (actualChangeSpec (100 : ℚ) 98))) = some false
      have h2 : actualChangeSpec (100 : ℚ) 98 = -2 := by norm_num [actualChangeSpec]
      rw [h2]
      simp [accurateSpec, samplePrediction]
    · rw [key "p1" 98 samplePrediction rfl rfl]
      show some |actualChangeSpec (100 : ℚ) 98 - samplePrediction.predictedChange| = some 4
      have h2 : actualChangeSpec (100 : ℚ) 98 = -2 := by norm_num [actualChangeSpec]
      rw [h2]
      show some |(-2 : ℚ) - 2| = some 4
      norm_num

/-- Witness for `resolvePrediction_sets_resolution_fields` at scenario 3's
concrete prediction. -/
theorem resolvePrediction_sets_resolution_fields_witness :
    ∃ q : Prediction,
      (resolvePrediction [samplePrediction] "p1" 98)[0]? = some q ∧
      q = { samplePrediction with
            resolved := true
            actualValue := some 98
            actualChange := some (actualChangeSpec samplePrediction.currentValue 98)
            accurate := some (decide (accurateSpec samplePrediction.direction
              (actualChangeSpec samplePrediction.currentValue 98)))
            error := some |actualChangeSpec samplePrediction.currentValue 98 -
              samplePrediction.predictedChange| } ∧
      (q.accurate = some true ↔
        accurateSpec samplePrediction.direction
          (actualChangeSpec samplePrediction.currentValue 98)) :=
  resolvePrediction_sets_resolution_fields.1 [samplePrediction] "p1" 98 0
    samplePrediction rfl rfl rfl

/-- Resolving leaves an already-resolved prediction untouched. -/
lemma resolveOne_of_resolved (id : String) (a : ℚ) (p : Prediction)
    (h : p.resolved = true) : resolveOne id a p = p := by
  unfold resolveOne
  rw [if_pos (Or.inr h)]

/-- A second resolution with the same target id is absorbed elementwise. -/
lemma resolveOne_resolveOne (id : String) (a a2 : ℚ) (p : Prediction) :
    resolveOne id a2 (resolveOne id a p) = resolveOne id a p := by
  by_cases hid : p.id = id
  · by_cases hres : p.resolved
    · rw [resolveOne_of_resolved id a p hres]
      exact resolveOne_of_resolved id a2 p hres
    · apply resolveOne_of_resolved
      unfold resolveOne
      rw [if_neg (by simp [hid, hres])]
  · have h1 : resolveOne id a p = p := by
      unfold resolveOne
      rw [if_pos (Or.inl hid)]
    rw [h1]
    unfold resolveOne
    rw [if_pos (Or.inl hid)]

/-- C6: resolution is idempotent.  Applying `resolvePrediction` again with the
same id (and any actual value) is the identity on the already-updated list,
and more generally any already-resolved element is returned unchanged (all
its fields, in particular `actualValue`, `actualChange`, `accurate`,
`error`). -/
theorem resolvePrediction_idempotent :
    ∀ (preds : List Prediction) (id id2 : String) (a a2 : ℚ),
      resolvePrediction (resolvePrediction preds id a) id a2 = resolvePrediction preds id a ∧
      (∀ (i : ℕ) (p : Prediction), preds[i]? = some p → p.resolved = true →
        (resolvePrediction preds id2 a2)[i]? = some p) := by
  intro preds id id2 a a2
  constructor
  · simp only [resolvePrediction]
    rw [List.map_map]
    apply List.map_congr_left
    intro p _
    exact resolveOne_resolveOne id a a2 p
  · intro i p hp hres
    rw [resolvePrediction, List.getElem?_map, hp, Option.map_some',
      resolveOne_of_resolved id2 a2 p hres]

/-- Witness for `resolvePrediction_idempotent` at a concrete resolved
prediction. -/
theorem resolvePrediction_idempotent_witness :
    (resolvePrediction [{ samplePrediction with resolved := true }] "p1" 55)[0]? =
      some { samplePrediction with resolved := true } :=
  (resolvePrediction_idempotent [{ samplePrediction with resolved := true }]
    "p1" "p1" 55 55).2 0 _ rfl rfl

/-! ## Claim theorems: long-trap-signal rule -/

lemma amount_sum_nonneg (txs : List WhaleTransaction) (p : WhaleTransaction → Bool)
    (h : ∀ t ∈ txs, 0 ≤ t.amount) :
    0 ≤ ((txs.filter p).map fun t => t.amount).sum := by
  apply List.sum_nonneg
  intro x hx
  obtain ⟨t, ht, rfl⟩ := List.mem_map.1 hx
  exact h t (List.mem_of_mem_filter ht)

/-- C2: the long-trap rule computes the deposit/withdrawal ratio with `10`
substituted when the withdrawal volume is `0` and the deposit volume positive
(`1` when both are `0`); it emits exactly one `warning` alert iff the ratio
exceeds `2` and the 24h price change exceeds `2%`, exactly one `info` alert
iff the ratio exceeds `3` and the `warning` branch did not fire (the source's
`else if`, so the price condition fails), and otherwise emits nothing, its
status being `normal` exactly when nothing was emitted. -/
theorem longTrap_rule :
    ∀ (txs : List WhaleTransaction) (changePercent24h : ℚ),
      (∀ t ∈ txs, 0 ≤ t.amount) →
      longTrapRatioVal txs =
        (if withdrawalBTC txs = 0 then (if depositBTC txs > 0 then 10 else 1)
         else depositBTC txs / withdrawalBTC txs) ∧
      (longTrapScan txs changePercent24h =
          [{ severity := AlertSeverity.warning
             category := AlertCategory.long_trap_signal
             address := none }] ↔
        (longTrapRatioVal txs > 2 ∧ changePercent24h > 2)) ∧
      (longTrapScan txs changePercent24h =
          [{ severity := AlertSeverity.info
             category := AlertCategory.long_trap_signal
             address := none }] ↔
        (longTrapRatioVal txs > 3 ∧ ¬ changePercent24h > 2)) ∧
      (longTrapScan txs changePercent24h = [] ↔
        (¬ (longTrapRatioVal txs > 2 ∧ changePercent24h > 2) ∧ ¬ longTrapRatioVal txs > 3)) ∧
      (longTrapStatus txs changePercent24h = RuleStatusKind.normal ↔
        longTrapScan txs changePercent24h = []) := by
  intro txs c hamt
  have hwd : 0 ≤ withdrawalBTC txs := amount_sum_nonneg txs _ hamt
  refine ⟨?_, ?_, ?_, ?_, ?_⟩
  · by_cases h0 : withdrawalBTC txs = 0
    · rw [if_pos h0]
      unfold longTrapRatioVal
      rw [if_neg (by rw [h0]; exact lt_irrefl 0)]
    · rw [if_neg h0]
      unfold longTrapRatioVal
      rw [if_pos (lt_of_le_of_ne hwd (Ne.symm h0))]
  · constructor
    · intro h
      unfold longTrapScan at h
      split_ifs at h with h1 h2
      · exact h1
      · exact absurd h (by decide)
    · intro h1
      unfold longTrapScan
      rw [if_pos h1]
  · constructor
    · intro h
      unfold longTrapScan at h
      split_ifs at h with h1 h2
      · exact absurd h (by decide)
      · exact ⟨h2, fun hc => h1 ⟨lt_trans (by norm_num) h2, hc⟩⟩
    · rintro ⟨h3, hc⟩
      unfold longTrapScan
      rw [if_neg (fun h12 => hc h12.2), if_pos h3]
  · constructor
    · intro h
      unfold longTrapScan at h
      split_ifs at h with h1 h2
      exact ⟨h1, h2⟩
    · rintro ⟨h1, h3⟩
      unfold longTrapScan
      rw [if_neg h1, if_neg h3]
  · unfold longTrapStatus
    by_cases hs : longTrapScan txs c = []
    · rw [if_pos hs]
      simp [hs]
    · rw [if_neg hs]
      simp [hs]

/-- Witness for `longTrap_rule` at a concrete sample: deposits 30 BTC,
withdrawals 10 BTC (ratio 3), price up 3% — one `warning` alert. -/
theorem longTrap_rule_witness :
    longTrapScan
      [{ amount := 30, type := TxType.exchange_deposit },
       { amount := 10, type := TxType.exchange_withdrawal }] 3 =
      [{ severity := AlertSeverity.warning
         category := AlertCategory.long_trap_signal
         address := none }] :=
  ((longTrap_rule
      [{ amount := 30, type := TxType.exchange_deposit },
       { amount := 10, type := TxType.exchange_withdrawal }] 3
      (by intro t ht; fin_cases ht <;> norm_num)).2.1).mpr
    (by
      constructor
      · show longTrapRatioVal _ > 2
        rw [show longTrapRatioVal
            [{ amount := 30, type := TxType.exchange_deposit },
             { amount := 10, type := TxType.exchange_withdrawal }] =
            (30 : ℚ) / 10 from by
          unfold longTrapRatioVal depositBTC withdrawalBTC
          rw [if_pos (by
            norm_num [List.filter,
              show (TxType.exchange_deposit == TxType.exchange_withdrawal) = false from by decide,
              show (TxType.exchange_withdrawal == TxType.exchange_withdrawal) = true from by decide])]
          norm_num [List.filter,
            show (TxType.exchange_deposit == TxType.exchange_deposit) = true from by decide,
            show (TxType.exchange_withdrawal == TxType.exchange_deposit) = false from by decide,
            show (TxType.exchange_deposit == TxType.exchange_withdrawal) = false from by decide,
            show (TxType.exchange_withdrawal == TxType.exchange_withdrawal) = true from by decide]]
        norm_num
      · norm_num)

/-! ## Claim theorems: new-whale-in-top-100 rule -/

/-- C8: with no previous-holder baseline the rule emits nothing and installs
the fetched holders as the baseline; with a baseline, every emitted alert is
`critical` in category `new_whale_top100`, and (when the fetched top-100
addresses are distinct, as a top-holder list is) each address present now but
absent from the previous tick accounts for exactly one alert, every other
address for none. -/
theorem newWhale_rule :
    ∀ (prevHolders holders : List TopHolder),
      (prevHolders = [] → newWhaleScan prevHolders holders = ([], holders)) ∧
      (prevHolders ≠ [] → (holders.map fun h => h.address).Nodup →
        (∀ a ∈ (newWhaleScan prevHolders holders).1,
          a.severity = AlertSeverity.critical ∧
          a.category = AlertCategory.new_whale_top100) ∧
        (∀ s : String,
          ((newWhaleScan prevHolders holders).1.count
              { severity := AlertSeverity.critical
                category := AlertCategory.new_whale_top100
                address := some s }) =
            if s ∈ (holders.map fun h => h.address) ∧
                ¬ s ∈ (prevHolders.map fun h => h.address)
            then 1 else 0)) := by
  intro prev cur
  constructor
  · intro hp
    subst hp
    unfold newWhaleScan
    by_cases hc : cur.length > 0
    · rw [if_pos hc]
      simp
    · rw [if_neg hc]
      rw [List.length_eq_zero.mp (Nat.eq_zero_of_not_pos hc)]
  · intro hp hnd
    by_cases hc : cur.length > 0
    · have hpl : prev.length > 0 := List.length_pos.mpr hp
      have hscan : (newWhaleScan prev cur).1 = (newWhales prev cur).map newWhaleAlert := by
        unfold newWhaleScan
        rw [if_pos hc, if_pos hpl]
      constructor
      · intro a ha
        rw [hscan] at ha
        obtain ⟨h, _, rfl⟩ := List.mem_map.1 ha
        exact ⟨rfl, rfl⟩
      · intro s
        rw [hscan, List.count_eq_countP, List.countP_map]
        have hfun : ∀ h : TopHolder,
            (((fun x => x ==
              ({ severity := AlertSeverity.critical
                 category := AlertCategory.new_whale_top100
                 address := some s } : EmittedAlert)) ∘ newWhaleAlert) h) = (h.address == s) := by
          intro h
          by_cases haddr : h.address = s
          · simp [newWhaleAlert, haddr]
          · simp [newWhaleAlert, haddr]
        rw [List.countP_congr (fun h _ => by rw [hfun h])]
        unfold newWhales
        rw [List.countP_filter]
        by_cases hmem : s ∈ cur.map (fun h => h.address)
        · by_cases hprev : s ∈ prev.map (fun h => h.address)
          · rw [if_neg (by simp [hprev])]
            apply List.countP_eq_zero.mpr
            intro h hh
            by_cases haddr : h.address = s
            · have hcont : (prev.map fun g => g.address).contains h.address = true := by
                rw [List.elem_iff, haddr]
                exact hprev
              rw [hcont]
              simp
            · simp [haddr]
          · rw [if_pos ⟨hmem, hprev⟩]
            have hpt : ∀ h ∈ cur,
                ((h.address == s) && !((prev.map fun g => g.address).contains h.address)) = true
                  ↔ (h.address == s) = true := by
              intro h _
              by_cases haddr : h.address = s
              · have hcont : (prev.map fun g => g.address).contains h.address = false := by
                  apply Bool.eq_false_iff.mpr
                  intro hct
                  exact hprev (by rw [← haddr]; exact List.elem_iff.mp hct)
                rw [hcont]
                simp
              · simp [haddr]
            rw [List.countP_congr hpt]
            have hcmap : List.count s (cur.map fun h => h.address) =
                List.countP (fun x => x.address == s) cur := by
              rw [List.count_eq_countP, List.countP_map]
              rfl
            rw [← hcmap]
            exact List.count_eq_one_of_mem hnd hmem
        · rw [if_neg (by simp [hmem])]
          apply List.countP_eq_zero.mpr
          intro h hh
          have haddr : ¬ h.address = s := by
            intro he
            exact hmem (List.mem_map.2 ⟨h, hh, he⟩)
          simp [haddr]
    · have hce : cur = [] := List.length_eq_zero.mp (Nat.eq_zero_of_not_pos hc)
      subst hce
      unfold newWhaleScan
      rw [if_neg hc]
      exact ⟨by intro a ha; exact absurd ha (List.not_mem_nil a), by intro s; simp⟩

/-- Witness for `newWhale_rule`: baseline holds one address, the next tick
has one retained and one new address — exactly one critical alert for the
new one. -/
theorem newWhale_rule_witness :
    ((newWhaleScan
        [{ rank := 1, address := "addr-a", balance := 5, percentOfTotal := 1 }]
        [{ rank := 1, address := "addr-a", balance := 5, percentOfTotal := 1 },
         { rank := 2, address := "addr-b", balance := 3, percentOfTotal := 1 }]).1.count
      { severity := AlertSeverity.critical
        category := AlertCategory.new_whale_top100
        address := some "addr-b" }) = 1 := by
  rw [(newWhale_rule
      [{ rank := 1, address := "addr-a", balance := 5, percentOfTotal := 1 }]
      [{ rank := 1, address := "addr-a", balance := 5, percentOfTotal := 1 },
       { rank := 2, address := "addr-b", balance := 3, percentOfTotal := 1 }]).2
    (by decide) (by decide) |>.2 "addr-b"]
  rw [if_pos (by decide)]

/-! ## Claim theorems: RSI -/

lemma deltas_length (data : List ℚ) : (deltas data).length = data.length - 1 := by
  unfold deltas
  rw [List.length_zipWith, List.length_tail]
  omega

lemma gainPart_nonneg (d : ℚ) : 0 ≤ gainPart d := by
  unfold gainPart
  split
  · linarith
  · norm_num

lemma lossPart_nonneg (d : ℚ) : 0 ≤ lossPart d := by
  unfold lossPart
  split
  · linarith
  · norm_num

lemma rsiVal_bounds (g l : ℚ) (hg : 0 ≤ g) (hl : 0 ≤ l) :
    0 ≤ rsiVal g l ∧ rsiVal g l ≤ 100 ∧ (rsiVal g l = 100 ↔ l = 0) := by
  unfold rsiVal
  by_cases h : l = 0
  · rw [if_pos h]
    exact ⟨by norm_num, le_refl 100, by simp [h]⟩
  · rw [if_neg h]
    have hl' : 0 < l := lt_of_le_of_ne hl (Ne.symm h)
    have hgl : 0 ≤ g / l := div_nonneg hg hl'.le
    have h1 : (1 : ℚ) ≤ 1 + g / l := by linarith
    have hpos : 0 < 100 / (1 + g / l) := by positivity
    have hle : 100 / (1 + g / l) ≤ 100 := div_le_self (by norm_num) h1
    refine ⟨by linarith, by linarith, ?_⟩
    constructor
    · intro he
      exact absurd rfl (by linarith : ¬ (0:ℚ) = 0)
    · intro he
      exact absurd he h

lemma wilderStep_nonneg (period : ℕ) (hp : 1 ≤ period) (gl : ℚ × ℚ) (d : ℚ)
    (hg : 0 ≤ gl.1) (hl : 0 ≤ gl.2) :
    0 ≤ (wilderStep period gl d).1 ∧ 0 ≤ (wilderStep period gl d).2 := by
  have hp1 : (1 : ℚ) ≤ (period : ℚ) := by exact_mod_cast hp
  have hp0 : (0 : ℚ) ≤ (period : ℚ) := by linarith
  unfold wilderStep
  constructor
  · exact div_nonneg
      (add_nonneg (mul_nonneg hg (by linarith)) (gainPart_nonneg d)) hp0
  · exact div_nonneg
      (add_nonneg (mul_nonneg hl (by linarith)) (lossPart_nonneg d)) hp0

lemma rsiInit_nonneg (data : List ℚ) (period : ℕ) :
    0 ≤ rsiInitGain data period ∧ 0 ≤ rsiInitLoss data period := by
  constructor
  · apply div_nonneg _ (Nat.cast_nonneg period)
    apply List.sum_nonneg
    intro x hx
    obtain ⟨d, _, rfl⟩ := List.mem_map.1 hx
    exact gainPart_nonneg d
  · apply div_nonneg _ (Nat.cast_nonneg period)
    apply List.sum_nonneg
    intro x hx
    obtain ⟨d, _, rfl⟩ := List.mem_map.1 hx
    exact lossPart_nonneg d

lemma scanl_wilder_nonneg (period : ℕ) (hp : 1 ≤ period) :
    ∀ (ds : List ℚ) (g l : ℚ), 0 ≤ g → 0 ≤ l →
      ∀ gl ∈ ds.scanl (wilderStep period) (g, l), 0 ≤ gl.1 ∧ 0 ≤ gl.2 := by
  intro ds
  induction ds with
  | nil =>
    intro g l hg hl gl hgl
    rw [List.scanl_nil, List.mem_singleton] at hgl
    subst hgl
    exact ⟨hg, hl⟩
  | cons d ds ih =>
    intro g l hg hl gl hgl
    rw [List.scanl_cons] at hgl
    rcases List.mem_cons.1 hgl with h | h
    · subst h
      exact ⟨hg, hl⟩
    · have hw := wilderStep_nonneg period hp (g, l) d hg hl
      exact ih _ _ hw.1 hw.2 gl h

/-- C7: RSI preserves the series length, is undefined before the warm-up
index `period`, and every defined value lies in `[0, 100]`, equalling `100`
exactly when the smoothed average loss carried at that index is `0`. -/
theorem calcRSI_bounds :
    ∀ (data : List ℚ) (period : ℕ), 1 ≤ period →
      (calcRSI data period).length = data.length ∧
      (∀ i : ℕ, i < period → i < data.length → (calcRSI data period)[i]? = some none) ∧
      (∀ (i : ℕ) (x : ℚ), (calcRSI data period)[i]? = some (some x) →
        period ≤ i ∧ 0 ≤ x ∧ x ≤ 100 ∧
        ∃ gl : ℚ × ℚ,
          (((deltas data).drop period).scanl (wilderStep period)
            (rsiInitGain data period, rsiInitLoss data period))[i - period]? = some gl ∧
          x = rsiVal gl.1 gl.2 ∧ (x = 100 ↔ gl.2 = 0)) := by
  intro data period hp
  by_cases hlen : data.length < period + 1
  · refine ⟨?_, ?_, ?_⟩
    · unfold calcRSI
      rw [if_pos hlen, List.length_replicate]
    · intro i h1 h2
      unfold calcRSI
      rw [if_pos hlen, List.getElem?_replicate, if_pos h2]
    · intro i x hx
      unfold calcRSI at hx
      rw [if_pos hlen, List.getElem?_replicate] at hx
      split_ifs at hx
      simp at hx
  · have hds : (deltas data).length = data.length - 1 := deltas_length data
    have heq : calcRSI data period = List.replicate period none ++
        (((deltas data).drop period).scanl (wilderStep period)
          (rsiInitGain data period, rsiInitLoss data period)).map
          (fun gl => some (rsiVal gl.1 gl.2)) := by
      unfold calcRSI
      rw [if_neg hlen]
    refine ⟨?_, ?_, ?_⟩
    · rw [heq, List.length_append, List.length_replicate, List.length_map,
        List.length_scanl, List.length_drop, hds]
      omega
    · intro i h1 h2
      rw [heq, List.getElem?_append_left (by rw [List.length_replicate]; exact h1),
        List.getElem?_replicate, if_pos h1]
    · intro i x hx
      rw [heq] at hx
      by_cases hip : i < period
      · rw [List.getElem?_append_left (by rw [List.length_replicate]; exact hip),
          List.getElem?_replicate, if_pos hip] at hx
        exact absurd hx (by simp)
      · push_neg at hip
        rw [List.getElem?_append_right (by rw [List.length_replicate]; exact hip),
          List.length_replicate, List.getElem?_map] at hx
        cases hgl : (((deltas data).drop period).scanl (wilderStep period)
            (rsiInitGain data period, rsiInitLoss data period))[i - period]? with
        | none =>
          rw [hgl] at hx
          simp at hx
        | some gl =>
          rw [hgl] at hx
          simp only [Option.map_some', Option.some.injEq] at hx
          have hmem := List.getElem?_mem hgl
          have hinit := rsiInit_nonneg data period
          have hnn := scanl_wilder_nonneg period hp _ _ _ hinit.1 hinit.2 gl hmem
          have hb := rsiVal_bounds gl.1 gl.2 hnn.1 hnn.2
          refine ⟨hip, ?_, ?_, gl, rfl, ?_, ?_⟩
          · rw [← hx]
            exact hb.1
          · rw [← hx]
            exact hb.2.1
          · exact hx.symm
          · rw [← hx]
            exact hb.2.2

/-- Witness for `calcRSI_bounds` at a concrete series and period. -/
theorem calcRSI_bounds_witness :
    (calcRSI [1, 2, 1] 1).length = 3 :=
  (calcRSI_bounds [1, 2, 1] 1 (by norm_num)).1

/-! ## Claim theorems: EMA -/

lemma emaRecur_length (k : ℚ) : ∀ (xs : List ℚ) (b : ℚ),
    (emaRecur k b xs).length = xs.length := by
  intro xs
  induction xs with
  | nil => intro b; rfl
  | cons x xs ih =>
    intro b
    simp only [emaRecur, List.length_cons, ih]

lemma emaLoop_map_some (k : ℚ) : ∀ (xs : List ℚ) (b : ℚ),
    emaLoop k (some b) (xs.map some) = (emaRecur k b xs).map some := by
  intro xs
  induction xs with
  | nil => intro b; rfl
  | cons x xs ih =>
    intro b
    simp only [List.map_cons, emaLoop, emaRecur, emaStep, Option.map₂_some_some]
    rw [ih]

/-- C9 counterexample: on the empty series the source seeds the output array
with `data[0]` (`undefined`), so `calcEMA` returns a one-element array and
the output length differs from the (zero) input length. -/
theorem calcEMA_empty_counterexample :
    ¬ (calcEMA (List.map some ([] : List ℚ)) 5).length = ([] : List ℚ).length := by
  simp [calcEMA]

/-- C9 (amended to nonempty series): `calcEMA` has output length equal to
input length, seeds with the first element, and follows the recurrence
`result[i] = series[i]*k + result[i-1]*(1-k)` with `k = 2/(period+1)` and no
undefined prefix — it agrees everywhere with the defined-everywhere
reference `emaSpec`, which is that recurrence. -/
theorem calcEMA_matches_spec :
    ∀ (data : List ℚ) (period : ℕ), data ≠ [] →
      calcEMA (data.map some) period = (emaSpec data period).map some ∧
      (emaSpec data period).length = data.length ∧
      (emaSpec data period)[0]? = data[0]? := by
  intro data period hne
  cases data with
  | nil => exact absurd rfl hne
  | cons d rest =>
    refine ⟨?_, ?_, ?_⟩
    · simp only [List.map_cons, calcEMA, emaSpec]
      rw [emaLoop_map_some]
    · simp only [emaSpec, List.length_cons, emaRecur_length]
    · simp [emaSpec]

/-- Witness for `calcEMA_matches_spec` at a concrete series. -/
theorem calcEMA_matches_spec_witness :
    calcEMA (List.map some ([1, 2, 3] : List ℚ)) 5 =
      (emaSpec [1, 2, 3] 5).map some :=
  (calcEMA_matches_spec [1, 2, 3] 5 (List.cons_ne_nil 1 [2, 3])).1

/-! ## Claim theorems: `predictPrice` on a constant series -/

lemma atIdx_natCast (l : List (Option ℚ)) (i : ℕ) :
    atIdx l (i : ℤ) = (l[i]?).getD none := by
  unfold atIdx
  rw [if_neg (by omega), Int.toNat_natCast, List.get?_eq_getElem?]

lemma atIdx_of_getElem (l : List (Option ℚ)) (i : ℤ) (j : ℕ) (hij : i = (j : ℤ))
    (v : Option ℚ) (hv : l[j]? = some v) : atIdx l i = v := by
  subst hij
  rw [atIdx_natCast, hv]
  rfl

lemma replicate_slice (n p i : ℕ) (c : ℚ) (hi : i < n) (hpi : p ≤ i + 1) :
    ((List.replicate n c).drop (i + 1 - p)).take p = List.replicate p c := by
  rw [List.drop_replicate, List.take_replicate]
  congr 1
  omega

lemma replicate_slice_sum (n p i : ℕ) (c : ℚ) (hp : p ≠ 0) (hi : i < n)
    (hpi : p ≤ i + 1) :
    (((List.replicate n c).drop (i + 1 - p)).take p).sum / (p : ℚ) = c := by
  rw [replicate_slice n p i c hi hpi, List.sum_replicate, nsmul_eq_mul]
  exact mul_div_cancel_left₀ c (by exact_mod_cast hp)

lemma calcSMA_replicate_getElem (n p i : ℕ) (c : ℚ) (hp : p ≠ 0) (hi : i < n)
    (hpi : p ≤ i + 1) :
    (calcSMA (List.replicate n c) p)[i]? = some (some c) := by
  unfold calcSMA
  rw [List.length_replicate, List.getElem?_map, List.getElem?_range hi,
    Option.map_some']
  rw [if_neg (by omega)]
  rw [replicate_slice_sum n p i c hp hi hpi]

lemma replicate_getD (n i : ℕ) (c d : ℚ) (hi : i < n) :
    (List.replicate n c).getD i d = c := by
  rw [List.getD_eq_getElem?_getD, List.getElem?_replicate, if_pos hi]
  rfl

lemma calcMomentum_replicate_getElem (n p i : ℕ) (c : ℚ) (hc : c ≠ 0) (hi : i < n)
    (hip : p ≤ i) :
    (calcMomentum (List.replicate n c) p)[i]? = some (some 0) := by
  unfold calcMomentum
  rw [List.length_replicate, List.getElem?_map, List.getElem?_range hi,
    Option.map_some']
  rw [if_neg (by omega), replicate_getD n (i - p) c 0 (by omega),
    replicate_getD n i c 0 hi, if_neg hc]
  norm_num

lemma emaLoop_replicate (k x : ℚ) : ∀ n : ℕ,
    emaLoop k (some x) (List.replicate n (some x)) = List.replicate n (some x) := by
  intro n
  induction n with
  | zero => rfl
  | succ m ih =>
    show emaLoop k (some x) (some x :: List.replicate m (some x)) = _
    have hs : emaStep k (some x) (some x) = some x := by
      show some (x * k + x * (1 - k)) = some x
      congr 1
      ring
    simp only [emaLoop, hs, ih]
    rfl

lemma calcEMA_replicate (p n : ℕ) (x : ℚ) (hn : n ≠ 0) :
    calcEMA (List.replicate n (some x)) p = List.replicate n (some x) := by
  cases n with
  | zero => exact absurd rfl hn
  | succ m =>
    show calcEMA (some x :: List.replicate m (some x)) p = _
    simp only [calcEMA, emaLoop_replicate]
    rfl

lemma zipWith_replicate_same {α β γ : Type} (f : α → β → γ) (n : ℕ) (a : α) (b : β) :
    List.zipWith f (List.replicate n a) (List.replicate n b) =
      List.replicate n (f a b) := by
  induction n with
  | zero => rfl
  | succ m ih =>
    simp only [List.replicate_succ, List.zipWith_cons_cons, ih]

lemma calcMACD_replicate40_hist (c : ℚ) :
    (calcMACD (List.replicate 40 c)).2.2 = List.replicate 40 (some (0 : ℚ)) := by
  unfold calcMACD
  simp only [List.map_replicate]
  rw [calcEMA_replicate 12 40 c (by norm_num), calcEMA_replicate 26 40 c (by norm_num),
    zipWith_replicate_same]
  have h0 : Option.map₂ (fun a b => a - b) (some c) (some c) = some (0 : ℚ) := by
    rw [Option.map₂_some_some]
    congr 1
    ring
  rw [h0, calcEMA_replicate 9 40 0 (by norm_num), zipWith_replicate_same]
  have h1 : Option.map₂ (fun a b => a - b) (some (0 : ℚ)) (some (0 : ℚ)) = some (0 : ℚ) := by
    rw [Option.map₂_some_some]
    congr 1
    ring
  rw [h1]

lemma bbStd_replicate (sq : ℚ → ℚ) (n p i : ℕ) (c : ℚ) (hsq : sq 0 = 0)
    (hp : p ≠ 0) (hi : i < n) (hpi : p ≤ i + 1) :
    bbStd sq (List.replicate n c) p i = 0 := by
  unfold bbStd
  rw [replicate_slice n p i c hi hpi]
  simp only []
  rw [List.sum_replicate, nsmul_eq_mul, mul_div_cancel_left₀ c (by exact_mod_cast hp)]
  rw [List.map_replicate]
  rw [show (c - c) ^ 2 = (0 : ℚ) from by ring]
  rw [List.sum_replicate, nsmul_eq_mul, mul_zero, zero_div, hsq]

lemma calcBollingerBands_replicate_upper (sq : ℚ → ℚ) (n p i : ℕ) (c : ℚ)
    (hsq : sq 0 = 0) (hp : p ≠ 0) (hi : i < n) (hpi : p ≤ i + 1) :
    (calcBollingerBands sq (List.replicate n c) p).1[i]? = some (some c) := by
  unfold calcBollingerBands
  simp only []
  rw [List.length_replicate, List.getElem?_map, List.getElem?_range hi,
    Option.map_some']
  rw [if_neg (by omega)]
  rw [replicate_slice_sum n p i c hp hi hpi,
    bbStd_replicate sq n p i c hsq hp hi hpi]
  rw [show c + 2 * (0 : ℚ) = c from by ring]

lemma calcBollingerBands_replicate_lower (sq : ℚ → ℚ) (n p i : ℕ) (c : ℚ)
    (hsq : sq 0 = 0) (hp : p ≠ 0) (hi : i < n) (hpi : p ≤ i + 1) :
    (calcBollingerBands sq (List.replicate n c) p).2.2[i]? = some (some c) := by
  unfold calcBollingerBands
  simp only []
  rw [List.length_replicate, List.getElem?_map, List.getElem?_range hi,
    Option.map_some']
  rw [if_neg (by omega)]
  rw [replicate_slice_sum n p i c hp hi hpi,
    bbStd_replicate sq n p i c hsq hp hi hpi]
  rw [show c - 2 * (0 : ℚ) = c from by ring]

lemma deltas_zip_replicate (c : ℚ) : ∀ m : ℕ,
    List.zipWith (fun a b => b - a) (List.replicate (m + 1) c) (List.replicate m c) =
      List.replicate m (0 : ℚ) := by
  intro m
  induction m with
  | zero => rfl
  | succ k ih =>
    show List.zipWith _ (c :: List.replicate (k + 1) c) (c :: List.replicate k c) = _
    rw [List.zipWith_cons_cons, ih, sub_self]
    rfl

lemma deltas_replicate (n : ℕ) (c : ℚ) :
    deltas (List.replicate n c) = List.replicate (n - 1) (0 : ℚ) := by
  cases n with
  | zero => rfl
  | succ m =>
    unfold deltas
    rw [show (List.replicate (m + 1) c).tail = List.replicate m c from rfl]
    exact deltas_zip_replicate c m

lemma scanl_const {α β : Type} (f : α → β → α) (b : α) (a : β) (h : f b a = b) :
    ∀ n : ℕ, List.scanl f b (List.replicate n a) = List.replicate (n + 1) b := by
  intro n
  induction n with
  | zero => rfl
  | succ m ih =>
    show List.scanl f b (a :: List.replicate m a) = _
    rw [List.scanl_cons, h, ih]
    rfl

lemma calcRSI_replicate40 (c : ℚ) :
    calcRSI (List.replicate 40 c) 14 =
      List.replicate 14 none ++ List.replicate 26 (some (100 : ℚ)) := by
  have hgp : gainPart 0 = 0 := by
    unfold gainPart
    norm_num
  have hlp : lossPart 0 = 0 := by
    unfold lossPart
    norm_num
  have hig : rsiInitGain (List.replicate 40 c) 14 = 0 := by
    unfold rsiInitGain
    rw [deltas_replicate, List.take_replicate, List.map_replicate, hgp,
      List.sum_replicate]
    simp
  have hil : rsiInitLoss (List.replicate 40 c) 14 = 0 := by
    unfold rsiInitLoss
    rw [deltas_replicate, List.take_replicate, List.map_replicate, hlp,
      List.sum_replicate]
    simp
  unfold calcRSI
  rw [List.length_replicate, if_neg (by norm_num)]
  rw [hig, hil, deltas_replicate, List.drop_replicate]
  rw [show (40 : ℕ) - 1 - 14 = 25 from rfl]
  have hstep : wilderStep 14 ((0 : ℚ), (0 : ℚ)) 0 = ((0 : ℚ), (0 : ℚ)) := by
    unfold wilderStep
    rw [hgp, hlp]
    norm_num
  rw [scanl_const _ _ _ hstep 25, List.map_replicate]
  rw [show rsiVal (0 : ℚ) (0 : ℚ) = 100 from by unfold rsiVal; norm_num]

lemma smaSignals_replicate (c : ℚ) :
    smaSignals (List.replicate 40 c) =
      [{ name := "SMA交叉"
         direction := PredictionDirection.neutral
         weight := 0.2
         value := c - c }] := by
  unfold smaSignals
  rw [atIdx_of_getElem _ _ 39 (by rw [List.length_replicate]; norm_num) (some c)
      (calcSMA_replicate_getElem 40 5 39 c (by norm_num) (by norm_num) (by norm_num)),
    atIdx_of_getElem _ _ 39 (by rw [List.length_replicate]; norm_num) (some c)
      (calcSMA_replicate_getElem 40 20 39 c (by norm_num) (by norm_num) (by norm_num))]
  show [({ name := "SMA交叉"
           direction := if c > c then PredictionDirection.up
             else if c < c then PredictionDirection.down
             else PredictionDirection.neutral
           weight := 0.2
           value := c - c } : PredictionSignal)] = _
  rw [if_neg (lt_irrefl c), if_neg (lt_irrefl c)]

lemma rsiSignals_replicate (c : ℚ) :
    rsiSignals (List.replicate 40 c) =
      [{ name := "RSI"
         direction := PredictionDirection.down
         weight := 0.2
         value := 100 }] := by
  unfold rsiSignals
  rw [atIdx_of_getElem _ _ 39 (by rw [List.length_replicate]; norm_num) (some 100)
      (by
        rw [calcRSI_replicate40,
          List.getElem?_append_right (by rw [List.length_replicate]; norm_num),
          List.length_replicate, List.getElem?_replicate]
        rw [if_pos (by norm_num)])]
  show [({ name := "RSI"
           direction := if (100 : ℚ) < 30 then PredictionDirection.up
             else if (100 : ℚ) > 70 then PredictionDirection.down
             else PredictionDirection.neutral
           weight := 0.2
           value := 100 } : PredictionSignal)] = _
  rw [if_neg (by norm_num), if_pos (by norm_num)]

lemma macdSignals_replicate (c : ℚ) :
    macdSignals (List.replicate 40 c) =
      [{ name := "MACD"
         direction := PredictionDirection.neutral
         weight := 0.2
         value := 0 }] := by
  unfold macdSignals
  rw [atIdx_of_getElem _ _ 39 (by rw [List.length_replicate]; norm_num) (some 0)
      (by
        rw [calcMACD_replicate40_hist, List.getElem?_replicate]
        rw [if_pos (by norm_num)]),
    atIdx_of_getElem _ _ 38 (by rw [List.length_replicate]; norm_num) (some 0)
      (by
        rw [calcMACD_replicate40_hist, List.getElem?_replicate]
        rw [if_pos (by norm_num)])]
  show [({ name := "MACD"
           direction := if (0 : ℚ) > 0 then PredictionDirection.up
             else if (0 : ℚ) < 0 then PredictionDirection.down
             else PredictionDirection.neutral
           weight := 0.2
           value := 0 } : PredictionSignal)] = _
  rw [if_neg (lt_irrefl 0), if_neg (lt_irrefl 0)]

lemma momentumSignals_replicate (c : ℚ) (hc : c ≠ 0) :
    momentumSignals (List.replicate 40 c) =
      [{ name := "动量"
         direction := PredictionDirection.neutral
         weight := 0.15
         value := 0 }] := by
  unfold momentumSignals
  rw [atIdx_of_getElem _ _ 39 (by rw [List.length_replicate]; norm_num) (some 0)
      (calcMomentum_replicate_getElem 40 10 39 c hc (by norm_num) (by norm_num))]
  show [({ name := "动量"
           direction := if (0 : ℚ) > 0.1 then PredictionDirection.up
             else if (0 : ℚ) < -0.1 then PredictionDirection.down
             else PredictionDirection.neutral
           weight := 0.15
           value := 0 } : PredictionSignal)] = _
  rw [if_neg (by norm_num), if_neg (by norm_num)]

lemma bbSignals_replicate (sq : ℚ → ℚ) (c : ℚ) (hsq : sq 0 = 0) :
    bbSignals sq (List.replicate 40 c) =
      [{ name := "布林带"
         direction := PredictionDirection.neutral
         weight := 0.15
         value := 0.5 }] := by
  unfold bbSignals
  rw [atIdx_of_getElem _ _ 39 (by rw [List.length_replicate]; norm_num) (some c)
      (calcBollingerBands_replicate_upper sq 40 20 39 c hsq (by norm_num)
        (by norm_num) (by norm_num)),
    atIdx_of_getElem _ _ 39 (by rw [List.length_replicate]; norm_num) (some c)
      (calcBollingerBands_replicate_lower sq 40 20 39 c hsq (by norm_num)
        (by norm_num) (by norm_num))]
  have hr : ¬ (c - c > 0) := by norm_num
  show [({ name := "布林带"
           direction := if (if c - c > 0 then
               ((List.replicate 40 c).getD ((List.replicate 40 c).length - 1) 0 - c) / (c - c)
             else 0.5) < 0.2 then PredictionDirection.up
             else if (if c - c > 0 then
               ((List.replicate 40 c).getD ((List.replicate 40 c).length - 1) 0 - c) / (c - c)
             else 0.5) > 0.8 then PredictionDirection.down
             else PredictionDirection.neutral
           weight := 0.15
           value := if c - c > 0 then
               ((List.replicate 40 c).getD ((List.replicate 40 c).length - 1) 0 - c) / (c - c)
             else 0.5 } : PredictionSignal)] = _
  rw [if_neg hr]
  rw [if_neg (by norm_num), if_neg (by norm_num)]

lemma netflowSignals_zero : netflowSignals 0 = [] := by
  unfold netflowSignals
  simp

lemma ratSqrt_zero : ratSqrt 0 = 0 := by
  unfold ratSqrt
  norm_num

lemma predictPrice_replicate40 (sq : ℚ → ℚ) (c : ℚ) (hsq : sq 0 = 0) (hc : c ≠ 0) :
    (predictPrice sq (List.replicate 40 c) 0).direction = PredictionDirection.down ∧
    (predictPrice sq (List.replicate 40 c) 0).confidence = 31 := by
  have hpp : predictPrice sq (List.replicate 40 c) 0 =
      aggregateSignals
        [{ name := "SMA交叉"
           direction := PredictionDirection.neutral
           weight := 0.2
           value := c - c },
         { name := "RSI"
           direction := PredictionDirection.down
           weight := 0.2
           value := 100 },
         { name := "MACD"
           direction := PredictionDirection.neutral
           weight := 0.2
           value := 0 },
         { name := "动量"
           direction := PredictionDirection.neutral
           weight := 0.15
           value := 0 },
         { name := "布林带"
           direction := PredictionDirection.neutral
           weight := 0.15
           value := 0.5 }]
        ((List.replicate 40 c).getD ((List.replicate 40 c).length - 1) 0) := by
    unfold predictPrice
    rw [if_neg (by rw [List.length_replicate]; norm_num)]
    rw [smaSignals_replicate, rsiSignals_replicate, macdSignals_replicate,
      momentumSignals_replicate c hc, bbSignals_replicate sq c hsq, netflowSignals_zero]
    rfl
  set S : List PredictionSignal :=
    [{ name := "SMA交叉"
       direction := PredictionDirection.neutral
       weight := 0.2
       value := c - c },
     { name := "RSI"
       direction := PredictionDirection.down
       weight := 0.2
       value := 100 },
     { name := "MACD"
       direction := PredictionDirection.neutral
       weight := 0.2
       value := 0 },
     { name := "动量"
       direction := PredictionDirection.neutral
       weight := 0.15
       value := 0 },
     { name := "布林带"
       direction := PredictionDirection.neutral
       weight := 0.15
       value := 0.5 }] with hS
  have hup : upWeight S = 0 := by
    rw [hS]
    simp [upWeight, List.filter,
      show (PredictionDirection.neutral == PredictionDirection.up) = false from by decide,
      show (PredictionDirection.down == PredictionDirection.up) = false from by decide]
  have hdown : downWeight S = 0.2 := by
    rw [hS]
    simp [downWeight, List.filter,
      show (PredictionDirection.neutral == PredictionDirection.down) = false from by decide,
      show (PredictionDirection.down == PredictionDirection.down) = true from by decide]
  have htot : totalWeight S = 0.9 := by
    rw [hS]
    simp [totalWeight]
    norm_num
  have hne : ¬ S.length = 0 := by
    rw [hS]
    simp
  constructor
  · rw [hpp]
    unfold aggregateSignals
    rw [if_neg hne]
    show (if upWeight S > downWeight S * 1.2 then PredictionDirection.up
      else if downWeight S > upWeight S * 1.2 then PredictionDirection.down
      else PredictionDirection.neutral) = PredictionDirection.down
    rw [hup, hdown]
    rw [if_neg (by norm_num), if_pos (by norm_num)]
  · rw [hpp]
    unfold aggregateSignals
    rw [if_neg hne]
    show min 85 (max 15 (round
      ((if totalWeight S > 0 then max (upWeight S) (downWeight S) / totalWeight S else 0)
        * 70 + 15))) = 31
    rw [hup, hdown, htot]
    rw [if_pos (by norm_num)]
    rw [show max (0 : ℚ) 0.2 = 0.2 from max_eq_right (by norm_num)]
    rw [show (0.2 : ℚ) / 0.9 * 70 + 15 = 275 / 9 from by norm_num]
    rw [show round ((275 : ℚ) / 9) = 31 from by norm_num [round_eq]]
    norm_num

/-- C1 counterexample: on 40 constant prices (100 each) with zero exchange
netflow, `predictPrice` does not return `neutral` with confidence `15`: the
RSI of a constant series is `100` (zero average loss), a sell signal, so the
aggregate direction is `down` with confidence `31`. -/
theorem predictPrice_const_counterexample :
    ¬ ((predictPrice ratSqrt (List.replicate 40 (100 : ℚ)) 0).direction =
        PredictionDirection.neutral ∧
       (predictPrice ratSqrt (List.replicate 40 (100 : ℚ)) 0).confidence = 15) := by
  intro h
  have hd := (predictPrice_replicate40 ratSqrt 100 ratSqrt_zero (by norm_num)).1
  rw [h.1] at hd
  exact PredictionDirection.noConfusion hd

/-- C1 (amended): for every series of 40 equal nonzero prices and zero
exchange netflow, `predictPrice` returns direction `down` with confidence
`31` — the RSI indicator reports `100` on a constant series (average loss
`0`), a `down` signal of weight `0.2`, while all other indicators are
neutral.  The square-root function used by the Bollinger-band indicator is
only evaluated at `0` here, where `Math.sqrt 0 = 0`. -/
theorem predictPrice_const_is_down :
    ∀ (sq : ℚ → ℚ) (c : ℚ), sq 0 = 0 → c ≠ 0 →
      (predictPrice sq (List.replicate 40 c) 0).direction = PredictionDirection.down ∧
      (predictPrice sq (List.replicate 40 c) 0).confidence = 31 := by
  intro sq c hsq hc
  exact predictPrice_replicate40 sq c hsq hc

/-- Witness for `predictPrice_const_is_down` at the concrete constant price
`100` with the exact rational square root. -/
theorem predictPrice_const_is_down_witness :
    (predictPrice ratSqrt (List.replicate 40 (100 : ℚ)) 0).direction =
      PredictionDirection.down ∧
    (predictPrice ratSqrt (List.replicate 40 (100 : ℚ)) 0).confidence = 31 :=
  predictPrice_const_is_down ratSqrt 100 ratSqrt_zero (by norm_num)
